import Mathlib

/-!
Verification development for a stdio JSON-RPC multiplexing proxy
(`ace-proxy`).  The definitions below are shallow embeddings of the
program's data model and operations: machine integers are modelled as
`Nat`/`Int` with explicit `% 2^64` where wrap-around matters, time is a
monotone `Nat` clock passed explicitly, async oracles (channel sends,
await outcomes, backend stdout arrivals) are explicit parameters, and
fallible operations return `Except`.
-/

/-- JSON-RPC id: integer (i64) or string (`jsonrpc.rs`, `JsonRpcId`). -/
inductive JsonRpcId where
  | num (n : Int)
  | str (s : String)
deriving DecidableEq, Repr

/-- JSON-RPC error object (`jsonrpc.rs`, `JsonRpcError`); `data` is omitted
as no modelled operation inspects it. -/
structure JsonRpcError where
  code : Int
  message : String
deriving DecidableEq, Repr

/-- JSON-RPC request (`jsonrpc.rs`, `JsonRpcRequest`); `params` is kept as an
opaque optional string, since the modelled operations never inspect it. -/
structure JsonRpcRequest where
  jsonrpc : String
  id : Option JsonRpcId
  method : String
  params : Option String
deriving DecidableEq, Repr

/-- JSON-RPC response (`jsonrpc.rs`, `JsonRpcResponse`); `result` is opaque. -/
structure JsonRpcResponse where
  jsonrpc : String
  id : Option JsonRpcId
  result : Option String
  error : Option JsonRpcError
deriving DecidableEq, Repr

/-- `JsonRpcRequest::is_notification`: a message with no id. -/
def JsonRpcRequest.is_notification (r : JsonRpcRequest) : Bool :=
  r.id.isNone

/-- `JsonRpcResponse::error` smart constructor (`jsonrpc.rs`). -/
def JsonRpcResponse.mkError (id : Option JsonRpcId) (e : JsonRpcError) : JsonRpcResponse :=
  { jsonrpc := "2.0", id := id, result := none, error := some e }

/-- `JsonRpcResponse::success` smart constructor (`jsonrpc.rs`). -/
def JsonRpcResponse.mkSuccess (id : Option JsonRpcId) (result : String) : JsonRpcResponse :=
  { jsonrpc := "2.0", id := id, result := some result, error := none }

deriving instance DecidableEq for Except

/-- Error taxonomy of `error.rs` (`ProxyError`), restricted to the variants
reachable from the modelled operations. -/
inductive ProxyError where
  | backendSpawnFailed (m : String)
  | backendUnavailable (m : String)
  | backendTimeout (m : String)
  | routingFailed (m : String)
  | configError (m : String)
deriving DecidableEq, Repr

/- ------------------------------------------------------------------ -/
/- Event throttler (`throttle.rs`)                                     -/
/- ------------------------------------------------------------------ -/

/-- `ThrottledEvent` (`throttle.rs`): the batch returned by a flush.  The
Rust vector's order is unspecified, so the batch is modelled as the set of
drained paths. -/
structure ThrottledEvent where
  paths : Finset String
deriving DecidableEq

/-- `EventThrottler` (`throttle.rs`): pending path set, last flush instant
(monotone clock as `Nat` milliseconds), debounce window. -/
structure EventThrottler where
  pending_paths : Finset String
  last_flush : Nat
  debounce_duration : Nat
deriving DecidableEq

/-- `EventThrottler::new` (`throttle.rs` line 31). -/
def EventThrottler.new (debounce_ms : Nat) (now : Nat) : EventThrottler :=
  { pending_paths := ∅, last_flush := now, debounce_duration := debounce_ms }

/-- `EventThrottler::add_path` (`throttle.rs` line 40): insert into the set. -/
def EventThrottler.add_path (t : EventThrottler) (path : String) : EventThrottler :=
  { t with pending_paths := insert path t.pending_paths }

/-- `EventThrottler::should_flush` (`throttle.rs` line 46): nonempty pending
set and elapsed time at least the window. -/
def EventThrottler.should_flush (t : EventThrottler) (now : Nat) : Bool :=
  ¬ t.pending_paths = ∅ ∧ t.debounce_duration ≤ now - t.last_flush

/-- `EventThrottler::flush` (`throttle.rs` line 53): drain the pending set
and reset the timer; `none` on an empty set. -/
def EventThrottler.flush (t : EventThrottler) (now : Nat) :
    EventThrottler × Option ThrottledEvent :=
  if t.pending_paths = ∅ then
    (t, none)
  else
    ({ t with pending_paths := ∅, last_flush := now },
     some { paths := t.pending_paths })

/-- `EventThrottler::pending_count` (`throttle.rs` line 67). -/
def EventThrottler.pending_count (t : EventThrottler) : Nat :=
  t.pending_paths.card

/-- C6: Debouncer contract: `add_path` is insert-or-ignore (a path already
pending leaves the set unchanged); `should_flush` is true iff the pending
set is nonempty and the elapsed time since the last flush is at least the
window; `flush` on a nonempty set drains exactly the pending paths into the
batch, empties the set and resets `last_flush` to now; `flush` on an empty
set returns nothing and changes nothing. -/
theorem throttler_contract (t : EventThrottler) (p : String) (now : Nat) :
    ((t.add_path p).pending_paths = insert p t.pending_paths ∧
      (p ∈ t.pending_paths → t.add_path p = t)) ∧
    (t.should_flush now = true ↔
      t.pending_paths.Nonempty ∧ t.debounce_duration ≤ now - t.last_flush) ∧
    (t.pending_paths ≠ ∅ →
      t.flush now =
        ({ t with pending_paths := ∅, last_flush := now },
         some { paths := t.pending_paths })) ∧
    (t.pending_paths = ∅ → t.flush now = (t, none)) := by
  refine ⟨⟨rfl, fun hp => ?_⟩, ?_, fun hne => ?_, fun he => ?_⟩
  · simp [EventThrottler.add_path, Finset.insert_eq_self.mpr hp]
  · simp [EventThrottler.should_flush, Finset.nonempty_iff_ne_empty]
  · simp [EventThrottler.flush, hne]
  · simp [EventThrottler.flush, he]

/-- Witness for `throttler_contract` at a concrete throttler state,
discharging the inner hypotheses (`"a"` is pending; pending set nonempty). -/
theorem throttler_contract_witness :
    (({ pending_paths := {"a"}, last_flush := 0, debounce_duration := 500 } :
        EventThrottler).add_path "a" =
      { pending_paths := {"a"}, last_flush := 0, debounce_duration := 500 }) ∧
    (({ pending_paths := {"a"}, last_flush := 0, debounce_duration := 500 } :
        EventThrottler).flush 600 =
      ({ pending_paths := ∅, last_flush := 600, debounce_duration := 500 },
       some { paths := {"a"} })) := by
  have h := throttler_contract
    { pending_paths := {"a"}, last_flush := 0, debounce_duration := 500 } "a" 600
  exact ⟨h.1.2 (by decide), h.2.2.1 (by decide)⟩

/- ------------------------------------------------------------------ -/
/- Git tracked-files filter (`git_filter.rs`)                          -/
/- ------------------------------------------------------------------ -/

/-- Filesystem path, as its list of components stored innermost-first
(reversed): `/a/b/c` is `["c","b","a"]` and the filesystem root is `[]`.
`Path::parent` drops the innermost component, so here it is `List.tail`
(with `none` at the root, as in Rust). -/
abbrev FsPath := List String

/-- `Path::parent`: drop the innermost component; `none` at the root. -/
def FsPath.parent : FsPath → Option FsPath
  | [] => none
  | _ :: rest => some rest

/-- The proper ancestors of a path: its parent chain, innermost first. -/
def FsPath.ancestors : FsPath → List FsPath
  | [] => []
  | _ :: rest => rest :: FsPath.ancestors rest

/-- The ancestor-insertion loop of `GitTrackedFiles::new` (`git_filter.rs`
lines 26-33): starting from a directory, insert it and walk to its parent,
stopping early as soon as an already-present directory is found. -/
def addDirsLoop : Finset FsPath → FsPath → Finset FsPath
  | dirs, [] => if ([] : FsPath) ∈ dirs then dirs else insert ([] : FsPath) dirs
  | dirs, c :: rest =>
      if (c :: rest : FsPath) ∈ dirs then dirs
      else addDirsLoop (insert (c :: rest : FsPath) dirs) rest

/-- One iteration of the `for file in &files` loop of
`GitTrackedFiles::new`: seed the ancestor walk at `file.parent()`. -/
def dirsStep (dirs : Finset FsPath) (file : FsPath) : Finset FsPath :=
  match FsPath.parent file with
  | none => dirs
  | some d => addDirsLoop dirs d

/-- `GitTrackedFiles` (`git_filter.rs`): tracked files plus the
pre-computed set of their parent directories. -/
structure GitTrackedFiles where
  files : List FsPath
  directories : Finset FsPath

/-- `GitTrackedFiles::new` (`git_filter.rs` lines 21-37). -/
def GitTrackedFiles.new (files : List FsPath) : GitTrackedFiles :=
  { files := files, directories := files.foldl dirsStep ∅ }

/-- The ancestor-walk loop of `GitTrackedFiles::is_tracked` (`git_filter.rs`
lines 55-61): walk the parent chain of `p`, returning true at the first
ancestor that is a tracked file. -/
def ancestorInFiles (files : List FsPath) : FsPath → Bool
  | [] => false
  | _ :: rest => decide (rest ∈ files) || ancestorInFiles files rest

/-- `GitTrackedFiles::is_tracked` (`git_filter.rs` lines 41-64): direct file
match, then tracked-directory match, then the ancestor walk. -/
def GitTrackedFiles.is_tracked (g : GitTrackedFiles) (p : FsPath) : Bool :=
  decide (p ∈ g.files) || decide (p ∈ g.directories) || ancestorInFiles g.files p

theorem mem_ancestors_length {a d : FsPath} (h : a ∈ FsPath.ancestors d) :
    a.length < d.length := by
  induction d with
  | nil => simp [FsPath.ancestors] at h
  | cons c rest ih =>
      simp only [FsPath.ancestors, List.mem_cons] at h
      rcases h with rfl | h
      · simp
      · exact Nat.lt_trans (ih h) (by simp)

theorem ancestors_trans {a b d : FsPath} (ha : a ∈ FsPath.ancestors d)
    (hb : b ∈ FsPath.ancestors a) : b ∈ FsPath.ancestors d := by
  induction d with
  | nil => simp [FsPath.ancestors] at ha
  | cons c rest ih =>
      simp only [FsPath.ancestors, List.mem_cons] at ha ⊢
      rcases ha with rfl | ha
      · exact Or.inr hb
      · exact Or.inr (ih ha)

theorem ancestorInFiles_iff (files : List FsPath) (p : FsPath) :
    ancestorInFiles files p = true ↔ ∃ a ∈ FsPath.ancestors p, a ∈ files := by
  induction p with
  | nil => simp [ancestorInFiles, FsPath.ancestors]
  | cons c rest ih =>
      simp only [ancestorInFiles, FsPath.ancestors, Bool.or_eq_true, decide_eq_true_eq, ih]
      constructor
      · rintro (h | ⟨a, ha, hf⟩)
        · exact ⟨rest, List.mem_cons_self _ _, h⟩
        · exact ⟨a, List.mem_cons_of_mem _ ha, hf⟩
      · rintro ⟨a, ha, hf⟩
        rcases List.mem_cons.mp ha with rfl | ha
        · exact Or.inl hf
        · exact Or.inr ⟨a, ha, hf⟩

theorem addDirsLoop_mem (d : FsPath) :
    ∀ (dirs : Finset FsPath),
      (∀ a, (a = d ∨ a ∈ FsPath.ancestors d) → a ∈ dirs →
        ∀ b ∈ FsPath.ancestors a, b ∈ dirs) →
      ∀ x, (x ∈ addDirsLoop dirs d ↔ x ∈ dirs ∨ x = d ∨ x ∈ FsPath.ancestors d) := by
  induction d with
  | nil =>
      intro dirs _ x
      by_cases hd : ([] : FsPath) ∈ dirs
      · simp only [addDirsLoop, if_pos hd, FsPath.ancestors]
        constructor
        · exact fun h => Or.inl h
        · rintro (h | rfl | h)
          · exact h
          · exact hd
          · simp at h
      · simp only [addDirsLoop, if_neg hd, Finset.mem_insert, FsPath.ancestors]
        constructor
        · rintro (rfl | h)
          · exact Or.inr (Or.inl rfl)
          · exact Or.inl h
        · rintro (h | rfl | h)
          · exact Or.inr h
          · exact Or.inl rfl
          · simp at h
  | cons c rest ih =>
      intro dirs hclosed x
      by_cases hd : (c :: rest : FsPath) ∈ dirs
      · simp only [addDirsLoop, if_pos hd]
        constructor
        · exact fun h => Or.inl h
        · rintro (h | rfl | h)
          · exact h
          · exact hd
          · exact hclosed _ (Or.inl rfl) hd x h
      · simp only [addDirsLoop, if_neg hd]
        have hclosed' : ∀ a, (a = rest ∨ a ∈ FsPath.ancestors rest) →
            a ∈ insert (c :: rest : FsPath) dirs →
            ∀ b ∈ FsPath.ancestors a, b ∈ insert (c :: rest : FsPath) dirs := by
          intro a hmem hins b hb
          have halen : a.length < (c :: rest : FsPath).length := by
            rcases hmem with rfl | hmem
            · simp
            · exact Nat.lt_trans (mem_ancestors_length hmem) (by simp)
          have hane : a ≠ (c :: rest : FsPath) := by
            intro heq; rw [heq] at halen; exact Nat.lt_irrefl _ halen
          have hadirs : a ∈ dirs := by
            rcases Finset.mem_insert.mp hins with heq | h
            · exact absurd heq hane
            · exact h
          have hanc : a = (c :: rest : FsPath) ∨ a ∈ FsPath.ancestors (c :: rest) := by
            rcases hmem with rfl | hmem
            · exact Or.inr (by simp [FsPath.ancestors])
            · exact Or.inr (by simp [FsPath.ancestors, hmem])
          exact Finset.mem_insert_of_mem (hclosed a hanc hadirs b hb)
        rw [ih (insert (c :: rest : FsPath) dirs) hclosed' x]
        simp only [Finset.mem_insert, FsPath.ancestors, List.mem_cons]
        tauto

/-- Global ancestor-closure invariant of the `directories` accumulator. -/
def AncClosed (dirs : Finset FsPath) : Prop :=
  ∀ a ∈ dirs, ∀ b ∈ FsPath.ancestors a, b ∈ dirs

theorem dirsStep_spec (dirs : Finset FsPath) (f : FsPath) (h : AncClosed dirs) :
    AncClosed (dirsStep dirs f) ∧
      ∀ x, (x ∈ dirsStep dirs f ↔ x ∈ dirs ∨ x ∈ FsPath.ancestors f) := by
  match f with
  | [] =>
      refine ⟨h, fun x => ?_⟩
      simp [dirsStep, FsPath.parent, FsPath.ancestors]
  | c :: rest =>
      have hmem := addDirsLoop_mem rest dirs (fun a _ ha b hb => h a ha b hb)
      have hres : ∀ x, (x ∈ dirsStep dirs (c :: rest) ↔
          x ∈ dirs ∨ x ∈ FsPath.ancestors (c :: rest)) := by
        intro x
        rw [show dirsStep dirs (c :: rest) = addDirsLoop dirs rest from rfl, hmem x]
        simp only [FsPath.ancestors, List.mem_cons]
      refine ⟨?_, hres⟩
      intro a ha b hb
      rw [hres a] at ha
      rw [hres b]
      rcases ha with ha | ha
      · exact Or.inl (h a ha b hb)
      · rcases List.mem_cons.mp ha with rfl | ha'
        · exact Or.inr (by simp [FsPath.ancestors, hb])
        · exact Or.inr (List.mem_cons_of_mem _ (ancestors_trans ha' hb))

theorem foldl_dirsStep_spec (files : List FsPath) :
    ∀ (dirs : Finset FsPath), AncClosed dirs →
      AncClosed (files.foldl dirsStep dirs) ∧
        ∀ x, (x ∈ files.foldl dirsStep dirs ↔
          x ∈ dirs ∨ ∃ f ∈ files, x ∈ FsPath.ancestors f) := by
  induction files with
  | nil => intro dirs h; exact ⟨h, by simp⟩
  | cons f rest ih =>
      intro dirs h
      obtain ⟨h1, h2⟩ := dirsStep_spec dirs f h
      obtain ⟨h3, h4⟩ := ih (dirsStep dirs f) h1
      refine ⟨h3, fun x => ?_⟩
      rw [List.foldl_cons, h4 x, h2 x]
      constructor
      · rintro ((hx | hx) | ⟨g, hg, hx⟩)
        · exact Or.inl hx
        · exact Or.inr ⟨f, List.mem_cons_self _ _, hx⟩
        · exact Or.inr ⟨g, List.mem_cons_of_mem _ hg, hx⟩
      · rintro (hx | ⟨g, hg, hx⟩)
        · exact Or.inl (Or.inl hx)
        · rcases List.mem_cons.mp hg with rfl | hg'
          · exact Or.inl (Or.inr hx)
          · exact Or.inr ⟨g, hg', hx⟩

theorem new_directories_mem (files : List FsPath) (x : FsPath) :
    x ∈ (GitTrackedFiles.new files).directories ↔
      ∃ f ∈ files, x ∈ FsPath.ancestors f := by
  have h := (foldl_dirsStep_spec files ∅ (by intro a ha; simp at ha)).2 x
  simpa [GitTrackedFiles.new] using h

/-- C7: Git filter correctness: for a `GitTrackedFiles` built from `files`
(with `dirs` precomputed as the set of proper ancestors of members of
`files`, using early termination on an already-present ancestor),
`is_tracked p` is true iff `p ∈ files`, or `p` is a proper ancestor of a
member of `files` (i.e. `p ∈ dirs`), or some proper ancestor of `p` is in
`files`. -/
theorem git_filter_is_tracked_iff (files : List FsPath) (p : FsPath) :
    (GitTrackedFiles.new files).is_tracked p = true ↔
      p ∈ files ∨ (∃ f ∈ files, p ∈ FsPath.ancestors f) ∨
        ∃ a ∈ FsPath.ancestors p, a ∈ files := by
  have hd := new_directories_mem files p
  simp only [GitTrackedFiles.new] at hd
  simp only [GitTrackedFiles.is_tracked, Bool.or_eq_true, decide_eq_true_eq,
    GitTrackedFiles.new, ancestorInFiles_iff]
  rw [hd]
  exact or_assoc

/- ------------------------------------------------------------------ -/
/- Backend instance (`backend.rs`)                                     -/
/- ------------------------------------------------------------------ -/

/-- Rust `as` cast `u64 → i64` (two's-complement reinterpretation), used
when the proxy id is written into the outgoing request id
(`backend.rs` line 484, `JsonRpcId::Number(proxy_id as i64)`). -/
def u64ToI64 (n : Nat) : Int :=
  if n < 2 ^ 63 then (n : Int) else (n : Int) - 2 ^ 64

/-- Rust `as` cast `i64 → u64` (two's-complement reinterpretation), used by
the stdout reader on numeric response ids (`backend.rs` line 373,
`JsonRpcId::Number(n) => *n as u64`). -/
def i64ToU64 (n : Int) : Nat :=
  (n % 2 ^ 64).toNat

/-- Rust `str::parse::<u64>()` (`backend.rs` line 375): an optional leading
`+` followed by one or more ASCII digits, with value below `2 ^ 64`;
anything else fails. -/
def parseU64 (s : String) : Option Nat :=
  let ds := match s.data with
    | '+' :: rest => rest
    | cs => cs
  if ds = [] then none
  else if ds.all (fun c => c.isDigit) then
    let v := ds.foldl (fun acc c => acc * 10 + (c.toNat - 48)) 0
    if v < 2 ^ 64 then some v else none
  else none

/-- Proxy-id extraction in the stdout reader task (`backend.rs` lines
372-377): a numeric id is cast `as u64`; a string id is
`s.parse().unwrap_or(0)`. -/
def resolveProxyId : JsonRpcId → Nat
  | .num n => i64ToU64 n
  | .str s => (parseU64 s).getD 0

/-- The pending-request table `HashMap<u64, PendingRequest>` as an
association list `proxy_id → client_id`; the one-shot reply slot of each
`PendingRequest` is identified by its entry's key. -/
abbrev PendingTable := List (Nat × Option JsonRpcId)

/-- `HashMap::get` on the pending table. -/
def lookupPending (p : PendingTable) (k : Nat) : Option (Option JsonRpcId) :=
  match p.find? (fun e => decide (e.1 = k)) with
  | none => none
  | some e => some e.2

/-- `HashMap::remove` on the pending table. -/
def removePending (p : PendingTable) (k : Nat) : PendingTable :=
  p.filter (fun e => decide (e.1 ≠ k))

/-- `HashMap::insert` on the pending table (replaces any existing entry). -/
def insertPending (p : PendingTable) (k : Nat) (v : Option JsonRpcId) : PendingTable :=
  (k, v) :: removePending p k

/-- The set of proxy ids with outstanding entries. -/
def pendingKeys (p : PendingTable) : List Nat :=
  p.map Prod.fst

/-- One iteration of the stdout reader task on a parsed backend response
(`backend.rs` lines 369-395): if the response carries an id, resolve it to
a proxy id; if a pending entry with that key exists, remove it, restore the
stored client id into the response and deliver it through that entry's
reply slot (the returned pair records which slot fired and with what
value); otherwise the response is dropped. -/
def readerProcess (pending : PendingTable) (resp : JsonRpcResponse) :
    PendingTable × Option (Nat × JsonRpcResponse) :=
  match resp.id with
  | none => (pending, none)
  | some id =>
      let proxy_id := resolveProxyId id
      match lookupPending pending proxy_id with
      | some client_id =>
          (removePending pending proxy_id,
           some (proxy_id, { resp with id := client_id }))
      | none => (pending, none)

/-- `BackendState` (`backend.rs` lines 26-32). -/
inductive BackendState where
  | Spawning
  | Ready
  | Stopping
  | Dead
deriving DecidableEq, Repr

/-- `BackendInstance` (`backend.rs` lines 41-58).  The child handle and the
stdin sender are opaque numeric handles (`none` = taken/closed), the
pending table an association list, the config and the Unix process-group
back-reference opaque numbers, the monotone clock a `Nat`. -/
structure BackendInstance where
  root : String
  state : BackendState
  last_used : Nat
  child : Option Nat
  stdin_tx : Option Nat
  pending : PendingTable
  request_timeout : Nat
  config : Nat
  process_group_ptr : Option Nat
deriving DecidableEq, Repr

/-- `BackendInstance::has_pending` (`backend.rs` line 544). -/
def BackendInstance.has_pending (b : BackendInstance) : Bool :=
  ¬ b.pending.isEmpty

/-- `BackendInstance::is_dead` (`backend.rs` line 550). -/
def BackendInstance.is_dead (b : BackendInstance) : Bool :=
  b.state = BackendState.Dead

/-- How `tokio::time::timeout(request_timeout, response_rx)` ends when none
of the processed arrivals fired this call's reply slot: the slot was closed
without a value (`Ok(Err(_))`), or the deadline elapsed (`Err(_)`). -/
inductive AwaitDisposition where
  | closedSlot
  | deadline
deriving DecidableEq, Repr

/-- Reader-task activity during one `send_request` await: backend responses
arrive in order and are processed by `readerProcess` on the shared pending
table; the await ends at the first arrival that fires the slot of
`proxy_id`. -/
def processArrivals : PendingTable → Nat → List JsonRpcResponse →
    PendingTable × Option JsonRpcResponse
  | pending, _, [] => (pending, none)
  | pending, proxy_id, r :: rest =>
      match readerProcess pending r with
      | (p2, some (q, v)) =>
          if q = proxy_id then (p2, some v) else processArrivals p2 proxy_id rest
      | (p2, none) => processArrivals p2 proxy_id rest

/-- `BackendInstance::send_request` (`backend.rs` lines 450-519).  Explicit
oracles: `counter` is the process-wide proxy-id counter (`fetch_add`
semantics, wrapping at `2 ^ 64`), `now` the clock, `sendOk` whether the
bounded stdin channel accepted the serialized line, `arrivals` the backend
responses the reader task processed during the await, and `dispo` how the
await ended if no arrival fired this call's slot.  Returns the updated
instance, the updated counter, the requests enqueued to the backend, and
the call result. -/
def BackendInstance.send_request (b : BackendInstance) (counter : Nat)
    (request : JsonRpcRequest) (now : Nat) (sendOk : Bool)
    (arrivals : List JsonRpcResponse) (dispo : AwaitDisposition) :
    BackendInstance × Nat × List JsonRpcRequest × Except ProxyError JsonRpcResponse :=
  let b := { b with last_used := now }
  match b.stdin_tx with
  | none =>
      (b, counter, [], .error (.backendUnavailable "Backend stdin not available"))
  | some _ =>
      if request.is_notification then
        (b, counter, [],
         .error (.routingFailed "send_request called with notification (id is None)"))
      else
        let proxy_id := counter
        let counter := (counter + 1) % 2 ^ 64
        let pending1 := insertPending b.pending proxy_id request.id
        let b := { b with pending := pending1 }
        let backend_request := { request with id := some (.num (u64ToI64 proxy_id)) }
        if ¬ sendOk then
          (b, counter, [], .error (.backendUnavailable "Failed to send to backend"))
        else
          match processArrivals pending1 proxy_id arrivals with
          | (p2, some v) =>
              ({ b with pending := p2 }, counter, [backend_request], .ok v)
          | (p2, none) =>
              match dispo with
              | .closedSlot =>
                  ({ b with pending := removePending p2 proxy_id, state := .Dead },
                   counter, [backend_request],
                   .error (.backendUnavailable "Backend response channel closed"))
              | .deadline =>
                  ({ b with pending := removePending p2 proxy_id },
                   counter, [backend_request],
                   .error (.backendTimeout ("Request timed out after " ++
                     toString b.request_timeout ++ " seconds")))

/-- `BackendInstance::send_notification` (`backend.rs` lines 521-541). -/
def BackendInstance.send_notification (b : BackendInstance)
    (notification : JsonRpcRequest) (now : Nat) (sendOk : Bool) :
    BackendInstance × List JsonRpcRequest × Except ProxyError Unit :=
  let b := { b with last_used := now }
  if ¬ notification.is_notification then
    (b, [],
     .error (.routingFailed "send_notification called with request (id is Some)"))
  else
    match b.stdin_tx with
    | none => (b, [], .error (.backendUnavailable "Backend stdin not available"))
    | some _ =>
        if sendOk then (b, [notification], .ok ())
        else (b, [], .error (.backendUnavailable "Failed to send to backend"))

/-- `next_proxy_id` (`backend.rs` lines 17-23): `fetch_add(1)` on the
process-wide `AtomicU64` (initialized to 1) returns the old value and
stores the incremented value, wrapping at `2 ^ 64`. -/
def next_proxy_id (counter : Nat) : Nat × Nat :=
  (counter, (counter + 1) % 2 ^ 64)

/-- The proxy ids handed out by `k` consecutive `next_proxy_id` calls
starting from counter value `c`. -/
def allocIds : Nat → Nat → List Nat
  | _, 0 => []
  | c, k + 1 => (next_proxy_id c).1 :: allocIds (next_proxy_id c).2 k

theorem i64ToU64_u64ToI64 (n : Nat) (h : n < 2 ^ 64) : i64ToU64 (u64ToI64 n) = n := by
  have h64 : (2:Int) ^ 64 = 18446744073709551616 := by norm_num
  have hn63 : (2:Nat) ^ 63 = 9223372036854775808 := by norm_num
  have hn64 : (2:Nat) ^ 64 = 18446744073709551616 := by norm_num
  rw [hn64] at h
  unfold i64ToU64 u64ToI64
  rw [hn63, h64]
  split <;> omega

theorem not_mem_keys_removePending (P : PendingTable) (k : Nat) :
    k ∉ pendingKeys (removePending P k) := by
  intro h
  simp only [pendingKeys, removePending, List.mem_map] at h
  obtain ⟨e, he, hk⟩ := h
  have h2 := (List.mem_filter.mp he).2
  simp [hk] at h2

theorem keys_removePending_subset (P : PendingTable) (k : Nat) :
    pendingKeys (removePending P k) ⊆ pendingKeys P := by
  intro x hx
  simp only [pendingKeys, removePending, List.mem_map] at hx ⊢
  obtain ⟨e, he, rfl⟩ := hx
  exact ⟨e, (List.mem_filter.mp he).1, rfl⟩

theorem lookupPending_insertPending (p : PendingTable) (k : Nat) (v : Option JsonRpcId) :
    lookupPending (insertPending p k v) k = some v := by
  simp [lookupPending, insertPending, List.find?]

theorem lookupPending_eq_none (p : PendingTable) (k : Nat) (h : k ∉ pendingKeys p) :
    lookupPending p k = none := by
  induction p with
  | nil => rfl
  | cons e rest ih =>
      simp only [pendingKeys, List.map_cons, List.mem_cons, not_or] at h
      have he : (decide (e.1 = k)) = false := by
        simp only [decide_eq_false_iff_not]
        exact fun hk => h.1 hk.symm
      have hrest : lookupPending rest k = none := by
        exact ih (by simpa [pendingKeys] using h.2)
      simp only [lookupPending, List.find?, he] at hrest ⊢
      exact hrest

theorem readerProcess_fired (P : PendingTable) (resp : JsonRpcResponse)
    (q : Nat) (v : JsonRpcResponse)
    (h : (readerProcess P resp).2 = some (q, v)) :
    lookupPending P q = some v.id ∧ (readerProcess P resp).1 = removePending P q := by
  cases hid : resp.id with
  | none => simp [readerProcess, hid] at h
  | some id =>
      simp only [readerProcess, hid] at h ⊢
      cases hl : lookupPending P (resolveProxyId id) with
      | none => rw [hl] at h; simp at h
      | some cid =>
          rw [hl] at h
          simp only [Option.some.injEq, Prod.mk.injEq] at h
          obtain ⟨hq, hv⟩ := h
          subst hq
          subst hv
          rw [hl]
          exact ⟨rfl, rfl⟩

theorem readerProcess_keys_subset (P : PendingTable) (r : JsonRpcResponse) :
    pendingKeys (readerProcess P r).1 ⊆ pendingKeys P := by
  cases hid : r.id with
  | none => simp [readerProcess, hid]
  | some id =>
      simp only [readerProcess, hid]
      cases hl : lookupPending P (resolveProxyId id) with
      | none => simp
      | some cid => simpa using keys_removePending_subset P _

theorem processArrivals_some_not_mem (evs : List JsonRpcResponse) :
    ∀ (P : PendingTable) (pid : Nat) (P2 : PendingTable) (v : JsonRpcResponse),
      processArrivals P pid evs = (P2, some v) → pid ∉ pendingKeys P2 := by
  induction evs with
  | nil =>
      intro P pid P2 v h
      simp [processArrivals] at h
  | cons r rest ih =>
      intro P pid P2 v h
      simp only [processArrivals] at h
      cases hr : readerProcess P r with
      | mk p2 fired =>
          rw [hr] at h
          cases fired with
          | none => exact ih p2 pid P2 v h
          | some qv =>
              obtain ⟨q, w⟩ := qv
              dsimp only at h
              by_cases hq : q = pid
              · subst hq
                rw [if_pos rfl] at h
                obtain ⟨hP, _⟩ := Prod.mk.injEq _ _ _ _ ▸ h
                have h1 := (readerProcess_fired P r q w (by rw [hr])).2
                rw [hr] at h1
                dsimp only at h1
                subst hP
                rw [h1]
                exact not_mem_keys_removePending P q
              · rw [if_neg hq] at h
                exact ih p2 pid P2 v h

theorem processArrivals_none_keys (evs : List JsonRpcResponse) :
    ∀ (P : PendingTable) (pid : Nat),
      pendingKeys (processArrivals P pid evs).1 ⊆ pendingKeys P := by
  induction evs with
  | nil => intro P pid; simp [processArrivals]
  | cons r rest ih =>
      intro P pid
      simp only [processArrivals]
      cases hr : readerProcess P r with
      | mk p2 fired =>
          have hsub : pendingKeys p2 ⊆ pendingKeys P := by
            have := readerProcess_keys_subset P r
            rw [hr] at this
            exact this
          cases fired with
          | none => exact fun x hx => hsub (ih p2 pid hx)
          | some qv =>
              obtain ⟨q, w⟩ := qv
              dsimp only
              by_cases hq : q = pid
              · subst hq
                rw [if_pos rfl]
                exact hsub
              · rw [if_neg hq]
                exact fun x hx => hsub (ih p2 pid hx)

/-- C1: ID translation round-trip: a request dispatched through
`send_request` with client id `c` has its id replaced by a fresh proxy id
before enqueueing; when the reader task receives a backend response whose
id matches that pending proxy id, it removes the pending entry, restores
`c` into the response, and delivers it through that entry's reply slot, so
the response returned to the caller carries id `c`; and (isolation) a
fired reply slot always carries the client id stored in its own pending
entry, so no caller ever receives a response carrying another caller's
id. -/
theorem id_translation_roundtrip (b : BackendInstance) (counter : Nat)
    (request : JsonRpcRequest) (c : JsonRpcId) (now : Nat)
    (resp : JsonRpcResponse) (dispo : AwaitDisposition)
    (hstdin : b.stdin_tx.isSome = true)
    (hid : request.id = some c)
    (hcount : counter < 2 ^ 64)
    (hecho : resp.id = some (.num (u64ToI64 counter))) :
    ((b.send_request counter request now true [resp] dispo).2.2.1 =
        [{ request with id := some (.num (u64ToI64 counter)) }] ∧
      (b.send_request counter request now true [resp] dispo).2.2.2 =
        .ok { resp with id := some c } ∧
      counter ∉ pendingKeys (b.send_request counter request now true [resp] dispo).1.pending) ∧
    ∀ (P : PendingTable) (resp2 : JsonRpcResponse) (q : Nat) (v : JsonRpcResponse),
      (readerProcess P resp2).2 = some (q, v) → lookupPending P q = some v.id := by
  constructor
  · obtain ⟨s, hs⟩ := Option.isSome_iff_exists.mp hstdin
    have hnotif : request.is_notification = false := by
      simp [JsonRpcRequest.is_notification, hid]
    have hresolve : resolveProxyId (.num (u64ToI64 counter)) = counter := by
      simp [resolveProxyId, i64ToU64_u64ToI64 counter hcount]
    have hlook : lookupPending (insertPending b.pending counter (some c)) counter =
        some (some c) :=
      lookupPending_insertPending b.pending counter (some c)
    have hreader :
        readerProcess (insertPending b.pending counter (some c)) resp =
          (removePending (insertPending b.pending counter (some c)) counter,
           some (counter, { resp with id := some c })) := by
      simp only [readerProcess, hecho, hresolve, hlook]
    simp only [BackendInstance.send_request, hs, hnotif, hid, Bool.false_eq_true,
      if_false, Bool.not_true, processArrivals, hreader, if_pos rfl]
    refine ⟨rfl, rfl, ?_⟩
    exact not_mem_keys_removePending _ counter
  · intro P resp2 q v h
    exact (readerProcess_fired P resp2 q v h).1

/-- Witness for `id_translation_roundtrip`: a string client id `"abc-1"` is
restored into the response delivered for proxy id 7. -/
theorem id_translation_roundtrip_witness :
    (BackendInstance.send_request
      { root := "r", state := .Ready, last_used := 0, child := some 1,
        stdin_tx := some 2, pending := [], request_timeout := 120,
        config := 0, process_group_ptr := none } 7
      { jsonrpc := "2.0", id := some (.str "abc-1"), method := "ping", params := none }
      5 true
      [{ jsonrpc := "2.0", id := some (.num (u64ToI64 7)), result := some "ok",
         error := none }] .deadline).2.2.2 =
      .ok { jsonrpc := "2.0", id := some (.str "abc-1"), result := some "ok",
            error := none } := by
  exact (id_translation_roundtrip
    { root := "r", state := .Ready, last_used := 0, child := some 1,
      stdin_tx := some 2, pending := [], request_timeout := 120,
      config := 0, process_group_ptr := none } 7
    { jsonrpc := "2.0", id := some (.str "abc-1"), method := "ping", params := none }
    (.str "abc-1") 5
    { jsonrpc := "2.0", id := some (.num (u64ToI64 7)), result := some "ok",
      error := none } .deadline rfl rfl (by decide) rfl).1.2.1

/-- C2 (amended): when the stdin channel is present, the request has an id
and the enqueue into the stdin channel succeeds, a `send_request` call ends
in exactly one of three outcomes - a reply delivered through the reply slot
is returned (state unchanged), the reply slot closed without a value
(state transitions to Dead, BackendUnavailable "Backend response channel
closed"), or the deadline elapsed (state left unchanged, BackendTimeout) -
and in every outcome the proxy id allocated by this call is absent from the
pending table when the call returns. -/
theorem send_request_three_outcomes (b : BackendInstance) (counter : Nat)
    (request : JsonRpcRequest) (now : Nat)
    (arrivals : List JsonRpcResponse) (dispo : AwaitDisposition)
    (hstdin : b.stdin_tx.isSome = true)
    (hid : request.id.isSome = true) :
    counter ∉ pendingKeys (b.send_request counter request now true arrivals dispo).1.pending ∧
      ((∃ v, (b.send_request counter request now true arrivals dispo).2.2.2 = .ok v ∧
          (b.send_request counter request now true arrivals dispo).1.state = b.state) ∨
        ((b.send_request counter request now true arrivals dispo).2.2.2 =
            .error (.backendUnavailable "Backend response channel closed") ∧
          (b.send_request counter request now true arrivals dispo).1.state = .Dead) ∨
        ((b.send_request counter request now true arrivals dispo).2.2.2 =
            .error (.backendTimeout ("Request timed out after " ++
              toString b.request_timeout ++ " seconds")) ∧
          (b.send_request counter request now true arrivals dispo).1.state = b.state)) := by
  obtain ⟨s, hs⟩ := Option.isSome_iff_exists.mp hstdin
  obtain ⟨cid, hcid⟩ := Option.isSome_iff_exists.mp hid
  have hnotif : request.is_notification = false := by
    simp [JsonRpcRequest.is_notification, hcid]
  simp only [BackendInstance.send_request, hs, hnotif, Bool.false_eq_true, if_false,
    Bool.not_true]
  cases hpa : processArrivals (insertPending b.pending counter request.id) counter arrivals with
  | mk p2 fired =>
      cases fired with
      | some v =>
          dsimp only
          refine ⟨?_, Or.inl ⟨v, rfl, rfl⟩⟩
          exact processArrivals_some_not_mem arrivals _ counter p2 v hpa
      | none =>
          cases dispo with
          | closedSlot =>
              dsimp only
              refine ⟨?_, Or.inr (Or.inl ⟨rfl, rfl⟩)⟩
              exact not_mem_keys_removePending p2 counter
          | deadline =>
              dsimp only
              refine ⟨?_, Or.inr (Or.inr ⟨rfl, rfl⟩)⟩
              exact not_mem_keys_removePending p2 counter

/-- Witness for `send_request_three_outcomes` at a concrete call ending in
the deadline outcome. -/
theorem send_request_three_outcomes_witness :
    (0:Nat) ∉ pendingKeys (BackendInstance.send_request
      { root := "r", state := .Ready, last_used := 0, child := some 1,
        stdin_tx := some 2, pending := [], request_timeout := 120,
        config := 0, process_group_ptr := none } 0
      { jsonrpc := "2.0", id := some (.num 3), method := "m", params := none }
      4 true [] .deadline).1.pending := by
  exact (send_request_three_outcomes
    { root := "r", state := .Ready, last_used := 0, child := some 1,
      stdin_tx := some 2, pending := [], request_timeout := 120,
      config := 0, process_group_ptr := none } 0
    { jsonrpc := "2.0", id := some (.num 3), method := "m", params := none }
    4 [] .deadline rfl rfl).1

/-- C2 fails as stated: with the stdin channel present but the channel send
failing (the writer task is gone), `send_request` returns
BackendUnavailable "Failed to send to backend" while leaving the allocated
proxy id (5) in the pending table and the state Ready - none of the three
claimed outcomes occurs, and the claimed absence of the proxy id from the
pending table on return is violated. -/
theorem send_request_enqueue_failure_counterexample :
    (BackendInstance.send_request
      { root := "r", state := .Ready, last_used := 0, child := some 1,
        stdin_tx := some 2, pending := [], request_timeout := 120,
        config := 0, process_group_ptr := none } 5
      { jsonrpc := "2.0", id := some (.num 7), method := "m", params := none }
      1 false [] .deadline).2.2.2 =
        .error (.backendUnavailable "Failed to send to backend") ∧
    (BackendInstance.send_request
      { root := "r", state := .Ready, last_used := 0, child := some 1,
        stdin_tx := some 2, pending := [], request_timeout := 120,
        config := 0, process_group_ptr := none } 5
      { jsonrpc := "2.0", id := some (.num 7), method := "m", params := none }
      1 false [] .deadline).1.state = .Ready ∧
    (5:Nat) ∈ pendingKeys (BackendInstance.send_request
      { root := "r", state := .Ready, last_used := 0, child := some 1,
        stdin_tx := some 2, pending := [], request_timeout := 120,
        config := 0, process_group_ptr := none } 5
      { jsonrpc := "2.0", id := some (.num 7), method := "m", params := none }
      1 false [] .deadline).1.pending := by
  refine ⟨rfl, rfl, ?_⟩
  decide

/-- C9 (amended): when the stdin channel is available, `send_request` on a
message with no id fails with RoutingFailed; and `send_notification` on a
message carrying an id always fails with RoutingFailed and enqueues nothing
to the backend's stdin channel. -/
theorem api_misuse_rejection (b : BackendInstance)
    (request notification : JsonRpcRequest)
    (counter now now2 : Nat) (sendOk sendOk2 : Bool)
    (arrivals : List JsonRpcResponse) (dispo : AwaitDisposition)
    (hstdin : b.stdin_tx.isSome = true)
    (hreq : request.id = none)
    (hnotif : notification.id.isSome = true) :
    (b.send_request counter request now sendOk arrivals dispo).2.2.2 =
      .error (.routingFailed "send_request called with notification (id is None)") ∧
    (b.send_notification notification now2 sendOk2).2.1 = [] ∧
    (b.send_notification notification now2 sendOk2).2.2 =
      .error (.routingFailed "send_notification called with request (id is Some)") := by
  obtain ⟨s, hs⟩ := Option.isSome_iff_exists.mp hstdin
  obtain ⟨cid, hcid⟩ := Option.isSome_iff_exists.mp hnotif
  have h1 : request.is_notification = true := by
    simp [JsonRpcRequest.is_notification, hreq]
  have h2 : notification.is_notification = false := by
    simp [JsonRpcRequest.is_notification, hcid]
  refine ⟨?_, ?_, ?_⟩
  · simp only [BackendInstance.send_request, hs, h1, if_true]
  · simp [BackendInstance.send_notification, h2]
  · simp [BackendInstance.send_notification, h2]

/-- Witness for `api_misuse_rejection` at concrete inputs. -/
theorem api_misuse_rejection_witness :
    (BackendInstance.send_notification
      { root := "r", state := .Ready, last_used := 0, child := some 1,
        stdin_tx := some 2, pending := [], request_timeout := 120,
        config := 0, process_group_ptr := none }
      { jsonrpc := "2.0", id := some (.num 9), method := "n", params := none }
      3 true).2.2 =
      .error (.routingFailed "send_notification called with request (id is Some)") := by
  exact (api_misuse_rejection
    { root := "r", state := .Ready, last_used := 0, child := some 1,
      stdin_tx := some 2, pending := [], request_timeout := 120,
      config := 0, process_group_ptr := none }
    { jsonrpc := "2.0", id := none, method := "m", params := none }
    { jsonrpc := "2.0", id := some (.num 9), method := "n", params := none }
    0 0 3 true true [] .deadline rfl rfl rfl).2.2

/-- C9 fails as stated for `send_request`: when the stdin channel has been
taken (e.g. after shutdown), a no-id request fails with BackendUnavailable
"Backend stdin not available", not with RoutingFailed. -/
theorem send_request_no_stdin_counterexample :
    (BackendInstance.send_request
      { root := "r", state := .Dead, last_used := 0, child := none,
        stdin_tx := none, pending := [], request_timeout := 120,
        config := 0, process_group_ptr := none } 1
      { jsonrpc := "2.0", id := none, method := "m", params := none }
      0 true [] .deadline).2.2.2 =
        .error (.backendUnavailable "Backend stdin not available") ∧
    ¬ (BackendInstance.send_request
      { root := "r", state := .Dead, last_used := 0, child := none,
        stdin_tx := none, pending := [], request_timeout := 120,
        config := 0, process_group_ptr := none } 1
      { jsonrpc := "2.0", id := none, method := "m", params := none }
      0 true [] .deadline).2.2.2 =
        .error (.routingFailed "send_request called with notification (id is None)") := by
  exact ⟨rfl, by decide⟩

theorem allocIds_pos (k : Nat) :
    ∀ c, 1 ≤ c → c + k ≤ 2 ^ 64 → ∀ i ∈ allocIds c k, 1 ≤ i := by
  induction k with
  | zero => intro c _ _ i hi; simp [allocIds] at hi
  | succ k ih =>
      intro c hc hck i hi
      simp only [allocIds, next_proxy_id, List.mem_cons] at hi
      rcases hi with rfl | hi
      · exact hc
      · by_cases hlt : c + 1 < 2 ^ 64
        · rw [Nat.mod_eq_of_lt hlt] at hi
          exact ih (c + 1) (by omega) (by omega) i hi
        · have hk0 : k = 0 := by omega
          subst hk0
          simp [allocIds] at hi

/-- C10: the process-wide proxy-id counter starts at 1 and increments, so
within the first `2 ^ 64 - 1` allocations (the u64 wrap is physically
unreachable) every proxy id handed to a pending-table entry is at least 1;
consequently, when the reader task receives a backend response whose id is
a string that does not parse as an integer, it resolves it to proxy id 0,
finds no pending entry, and drops the response: the pending table is
unchanged and no reply slot fires. -/
theorem proxy_id_zero_never_allocated (k : Nat) (P : PendingTable) (s : String)
    (resp : JsonRpcResponse)
    (hk : k ≤ 2 ^ 64 - 1)
    (hkeys : ∀ q ∈ pendingKeys P, 1 ≤ q)
    (hs : parseU64 s = none)
    (hid : resp.id = some (.str s)) :
    (∀ i ∈ allocIds 1 k, 1 ≤ i) ∧ readerProcess P resp = (P, none) := by
  constructor
  · exact allocIds_pos k 1 (le_refl 1) (by omega)
  · have hres : resolveProxyId (.str s) = 0 := by simp [resolveProxyId, hs]
    have h0 : (0 : Nat) ∉ pendingKeys P := fun h => by
      have := hkeys 0 h; omega
    have hlk : lookupPending P 0 = none := lookupPending_eq_none P 0 h0
    simp [readerProcess, hid, hres, hlk]

/-- Witness for `proxy_id_zero_never_allocated`: an unparsable string id
`"abc"` leaves a table whose only key is 1 untouched and fires no slot. -/
theorem proxy_id_zero_never_allocated_witness :
    readerProcess [(1, some (JsonRpcId.num 5))]
      { jsonrpc := "2.0", id := some (.str "abc"), result := none, error := none } =
      ([(1, some (JsonRpcId.num 5))], none) := by
  exact (proxy_id_zero_never_allocated 3 [(1, some (JsonRpcId.num 5))] "abc"
    { jsonrpc := "2.0", id := some (.str "abc"), result := none, error := none }
    (by decide) (by decide) (by decide) rfl).2

/-- `BackendInstance::shutdown` (`backend.rs` lines 696-711): state to
Stopping, drop the stdin sender (closing the channel), take and kill the
child, state to Dead.  Returns the final instance and the pid that
`child.kill()` targeted, if any. -/
def BackendInstance.shutdown (b : BackendInstance) : BackendInstance × Option Nat :=
  ({ b with state := .Dead, stdin_tx := none, child := none }, b.child)

/-- `BackendInstance::spawn` (`backend.rs` lines 256-417), successful case:
fresh child and stdin handles, empty pending table, state Ready,
`last_used = now`; config, root and the process-group back-reference are
stored as given. -/
def BackendInstance.spawn (config : Nat) (root : String)
    (process_group : Option Nat) (request_timeout : Nat)
    (freshChild freshStdin : Nat) (now : Nat) : BackendInstance :=
  { root := root, state := .Ready, last_used := now, child := some freshChild,
    stdin_tx := some freshStdin, pending := [], request_timeout := request_timeout,
    config := config, process_group_ptr := process_group }

/-- `BackendInstance::restart` (`backend.rs` lines 624-649), with the
respawn succeeding: `shutdown()`, then `spawn()` with the same config, root
and process-group reference, then `std::mem::take` the new instance's child
handle, stdin sender and pending table into self, set `last_used = now`
and adopt the new state (Ready); finally force the ephemeral new instance's
state to Dead (its taken fields are left empty).  Returns the updated self
and the ephemeral instance as it is about to be dropped. -/
def BackendInstance.restart (b : BackendInstance) (now : Nat)
    (freshChild freshStdin : Nat) : BackendInstance × BackendInstance :=
  let b1 := (b.shutdown).1
  let new_instance := BackendInstance.spawn b1.config b1.root b1.process_group_ptr
    b1.request_timeout freshChild freshStdin now
  let self := { b1 with
    state := new_instance.state,
    child := new_instance.child,
    stdin_tx := new_instance.stdin_tx,
    pending := new_instance.pending,
    last_used := now }
  let ephemeral := { new_instance with
    child := none, stdin_tx := none, pending := [], state := .Dead }
  (self, ephemeral)

/-- `impl Drop for BackendInstance` (`backend.rs` lines 714-722): the pid
that `start_kill` targets on drop, if any; the drop guard only inspects the
child handle. -/
def BackendInstance.dropKillTarget (b : BackendInstance) : Option Nat :=
  b.child

/-- C5: `restart()` runs `shutdown()`, then spawns a new instance with the
same config, root and supervisor reference, moves the new instance's child
handle, stdin sender and pending table into self, sets `last_used` to now
and state to Ready; the ephemeral replaced instance has state Dead before
it is dropped, and dropping it does not kill the freshly spawned child now
owned by self (its child handle was taken, so the drop guard has no
target). -/
theorem restart_swaps_and_defuses (b : BackendInstance)
    (now freshChild freshStdin : Nat) :
    (b.restart now freshChild freshStdin).1.state = .Ready ∧
    (b.restart now freshChild freshStdin).1.child = some freshChild ∧
    (b.restart now freshChild freshStdin).1.stdin_tx = some freshStdin ∧
    (b.restart now freshChild freshStdin).1.pending = [] ∧
    (b.restart now freshChild freshStdin).1.last_used = now ∧
    (b.restart now freshChild freshStdin).1.root = b.root ∧
    (b.restart now freshChild freshStdin).1.config = b.config ∧
    (b.restart now freshChild freshStdin).1.process_group_ptr = b.process_group_ptr ∧
    (b.restart now freshChild freshStdin).2.state = .Dead ∧
    (b.restart now freshChild freshStdin).2.dropKillTarget = none ∧
    ¬ (b.restart now freshChild freshStdin).2.dropKillTarget = some freshChild := by
  refine ⟨rfl, rfl, rfl, rfl, rfl, rfl, rfl, rfl, rfl, rfl, ?_⟩
  intro h
  exact Option.noConfusion h

/-- Outcome of the retry loop: final backend state, the attempts at which
`send_request` was invoked, the attempts at which `restart` was invoked,
and the final result. -/
structure RetryOutcome where
  state : BackendState
  sends : List Nat
  restarts : List Nat
  result : Except ProxyError JsonRpcResponse
deriving DecidableEq, Repr

/-- The `for attempt in 0..=max_retries` loop of
`BackendInstance::send_request_with_retry` (`backend.rs` lines 652-693).
The per-attempt outcomes of `restart` and `send_request` are supplied by
oracles indexed by the attempt number; the loop reads and writes only the
backend's `state` (`restart` leaves Ready on success; a send failure
before the last attempt forces Dead).  `fuel` is the number of loop
iterations left (`max_retries + 1 - attempt`); running out of fuel is the
`for` loop ending, which returns the remembered error. -/
def retryFrom (restartO : Nat → Except ProxyError Unit)
    (sendO : Nat → Except ProxyError JsonRpcResponse) (max_retries : Nat) :
    Nat → Nat → BackendState → Option ProxyError → RetryOutcome
  | 0, _, st, last_error =>
      { state := st, sends := [], restarts := [],
        result := .error (last_error.getD (.backendUnavailable "All retries exhausted")) }
  | fuel + 1, attempt, st, _last_error =>
      if st = BackendState.Dead ∧ 0 < attempt then
        match restartO attempt with
        | .error e =>
            let r := retryFrom restartO sendO max_retries fuel (attempt + 1) st (some e)
            { r with restarts := attempt :: r.restarts }
        | .ok _ =>
            match sendO attempt with
            | .ok response =>
                { state := .Ready, sends := [attempt], restarts := [attempt],
                  result := .ok response }
            | .error e =>
                if attempt < max_retries then
                  let r := retryFrom restartO sendO max_retries fuel (attempt + 1) .Dead (some e)
                  { r with sends := attempt :: r.sends, restarts := attempt :: r.restarts }
                else
                  { state := .Ready, sends := [attempt], restarts := [attempt],
                    result := .error e }
      else
        match sendO attempt with
        | .ok response =>
            { state := st, sends := [attempt], restarts := [], result := .ok response }
        | .error e =>
            if attempt < max_retries then
              let r := retryFrom restartO sendO max_retries fuel (attempt + 1) .Dead (some e)
              { r with sends := attempt :: r.sends }
            else
              { state := st, sends := [attempt], restarts := [], result := .error e }

/-- `BackendInstance::send_request_with_retry` (`backend.rs` lines 652-693)
as a function of the initial state and the per-attempt oracles. -/
def send_request_with_retry (st : BackendState) (max_retries : Nat)
    (restartO : Nat → Except ProxyError Unit)
    (sendO : Nat → Except ProxyError JsonRpcResponse) : RetryOutcome :=
  retryFrom restartO sendO max_retries (max_retries + 1) 0 st none


theorem retryFrom_eq_restart_error {restartO : Nat → Except ProxyError Unit}
    {sendO : Nat → Except ProxyError JsonRpcResponse} {m fuel a : Nat}
    {st : BackendState} {le : Option ProxyError} {e : ProxyError}
    (hguard : st = BackendState.Dead ∧ 0 < a) (he : restartO a = .error e) :
    retryFrom restartO sendO m (fuel + 1) a st le =
      { state := (retryFrom restartO sendO m fuel (a + 1) st (some e)).state,
        sends := (retryFrom restartO sendO m fuel (a + 1) st (some e)).sends,
        restarts := a :: (retryFrom restartO sendO m fuel (a + 1) st (some e)).restarts,
        result := (retryFrom restartO sendO m fuel (a + 1) st (some e)).result } := by
  simp only [retryFrom, if_pos hguard, he]

theorem retryFrom_eq_restart_ok_send_ok {restartO : Nat → Except ProxyError Unit}
    {sendO : Nat → Except ProxyError JsonRpcResponse} {m fuel a : Nat}
    {st : BackendState} {le : Option ProxyError} {u : Unit} {response : JsonRpcResponse}
    (hguard : st = BackendState.Dead ∧ 0 < a) (hr : restartO a = .ok u)
    (hs : sendO a = .ok response) :
    retryFrom restartO sendO m (fuel + 1) a st le =
      { state := .Ready, sends := [a], restarts := [a], result := .ok response } := by
  simp only [retryFrom, if_pos hguard, hr, hs]

theorem retryFrom_eq_restart_ok_send_err_cont {restartO : Nat → Except ProxyError Unit}
    {sendO : Nat → Except ProxyError JsonRpcResponse} {m fuel a : Nat}
    {st : BackendState} {le : Option ProxyError} {u : Unit} {e : ProxyError}
    (hguard : st = BackendState.Dead ∧ 0 < a) (hr : restartO a = .ok u)
    (hs : sendO a = .error e) (ham : a < m) :
    retryFrom restartO sendO m (fuel + 1) a st le =
      { state := (retryFrom restartO sendO m fuel (a + 1) .Dead (some e)).state,
        sends := a :: (retryFrom restartO sendO m fuel (a + 1) .Dead (some e)).sends,
        restarts := a :: (retryFrom restartO sendO m fuel (a + 1) .Dead (some e)).restarts,
        result := (retryFrom restartO sendO m fuel (a + 1) .Dead (some e)).result } := by
  simp only [retryFrom, if_pos hguard, hr, hs, if_pos ham]

theorem retryFrom_eq_restart_ok_send_err_last {restartO : Nat → Except ProxyError Unit}
    {sendO : Nat → Except ProxyError JsonRpcResponse} {m fuel a : Nat}
    {st : BackendState} {le : Option ProxyError} {u : Unit} {e : ProxyError}
    (hguard : st = BackendState.Dead ∧ 0 < a) (hr : restartO a = .ok u)
    (hs : sendO a = .error e) (ham : ¬ a < m) :
    retryFrom restartO sendO m (fuel + 1) a st le =
      { state := .Ready, sends := [a], restarts := [a], result := .error e } := by
  simp only [retryFrom, if_pos hguard, hr, hs, if_neg ham]

theorem retryFrom_eq_send_ok {restartO : Nat → Except ProxyError Unit}
    {sendO : Nat → Except ProxyError JsonRpcResponse} {m fuel a : Nat}
    {st : BackendState} {le : Option ProxyError} {response : JsonRpcResponse}
    (hguard : ¬ (st = BackendState.Dead ∧ 0 < a)) (hs : sendO a = .ok response) :
    retryFrom restartO sendO m (fuel + 1) a st le =
      { state := st, sends := [a], restarts := [], result := .ok response } := by
  simp only [retryFrom, if_neg hguard, hs]

theorem retryFrom_eq_send_err_cont {restartO : Nat → Except ProxyError Unit}
    {sendO : Nat → Except ProxyError JsonRpcResponse} {m fuel a : Nat}
    {st : BackendState} {le : Option ProxyError} {e : ProxyError}
    (hguard : ¬ (st = BackendState.Dead ∧ 0 < a)) (hs : sendO a = .error e)
    (ham : a < m) :
    retryFrom restartO sendO m (fuel + 1) a st le =
      { state := (retryFrom restartO sendO m fuel (a + 1) .Dead (some e)).state,
        sends := a :: (retryFrom restartO sendO m fuel (a + 1) .Dead (some e)).sends,
        restarts := (retryFrom restartO sendO m fuel (a + 1) .Dead (some e)).restarts,
        result := (retryFrom restartO sendO m fuel (a + 1) .Dead (some e)).result } := by
  simp only [retryFrom, if_neg hguard, hs, if_pos ham]

theorem retryFrom_eq_send_err_last {restartO : Nat → Except ProxyError Unit}
    {sendO : Nat → Except ProxyError JsonRpcResponse} {m fuel a : Nat}
    {st : BackendState} {le : Option ProxyError} {e : ProxyError}
    (hguard : ¬ (st = BackendState.Dead ∧ 0 < a)) (hs : sendO a = .error e)
    (ham : ¬ a < m) :
    retryFrom restartO sendO m (fuel + 1) a st le =
      { state := st, sends := [a], restarts := [], result := .error e } := by
  simp only [retryFrom, if_neg hguard, hs, if_neg ham]

theorem retryFrom_sends_length (restartO : Nat → Except ProxyError Unit)
    (sendO : Nat → Except ProxyError JsonRpcResponse) (m : Nat) :
    ∀ (fuel a : Nat) (st : BackendState) (le : Option ProxyError),
      (retryFrom restartO sendO m fuel a st le).sends.length ≤ fuel := by
  intro fuel
  induction fuel with
  | zero => intro a st le; simp [retryFrom]
  | succ fuel ih =>
      intro a st le
      by_cases hguard : st = BackendState.Dead ∧ 0 < a
      · cases hr : restartO a with
        | error e =>
            rw [retryFrom_eq_restart_error hguard hr]
            exact Nat.le_succ_of_le (ih (a + 1) st (some e))
        | ok u =>
            cases hs : sendO a with
            | ok response =>
                rw [retryFrom_eq_restart_ok_send_ok hguard hr hs]; simp
            | error e =>
                by_cases ham : a < m
                · rw [retryFrom_eq_restart_ok_send_err_cont hguard hr hs ham]
                  simpa using Nat.succ_le_succ (ih (a + 1) .Dead (some e))
                · rw [retryFrom_eq_restart_ok_send_err_last hguard hr hs ham]; simp
      · cases hs : sendO a with
        | ok response => rw [retryFrom_eq_send_ok hguard hs]; simp
        | error e =>
            by_cases ham : a < m
            · rw [retryFrom_eq_send_err_cont hguard hs ham]
              simpa using Nat.succ_le_succ (ih (a + 1) .Dead (some e))
            · rw [retryFrom_eq_send_err_last hguard hs ham]; simp

theorem retryFrom_mem_ge (restartO : Nat → Except ProxyError Unit)
    (sendO : Nat → Except ProxyError JsonRpcResponse) (m : Nat) :
    ∀ (fuel a : Nat) (st : BackendState) (le : Option ProxyError),
      (∀ k ∈ (retryFrom restartO sendO m fuel a st le).sends, a ≤ k) ∧
      (∀ k ∈ (retryFrom restartO sendO m fuel a st le).restarts, a ≤ k ∧ 0 < k) := by
  intro fuel
  induction fuel with
  | zero => intro a st le; simp [retryFrom]
  | succ fuel ih =>
      intro a st le
      by_cases hguard : st = BackendState.Dead ∧ 0 < a
      · cases hr : restartO a with
        | error e =>
            rw [retryFrom_eq_restart_error hguard hr]
            obtain ⟨ihs, ihr⟩ := ih (a + 1) st (some e)
            refine ⟨fun k hk => by have := ihs k hk; omega, fun k hk => ?_⟩
            rcases List.mem_cons.mp hk with rfl | hk
            · exact ⟨le_refl k, hguard.2⟩
            · have := ihr k hk; exact ⟨by omega, this.2⟩
        | ok u =>
            cases hs : sendO a with
            | ok response =>
                rw [retryFrom_eq_restart_ok_send_ok hguard hr hs]
                refine ⟨fun k hk => ?_, fun k hk => ?_⟩
                · simp only [List.mem_singleton] at hk; omega
                · simp only [List.mem_singleton] at hk; subst hk
                  exact ⟨le_refl k, hguard.2⟩
            | error e =>
                by_cases ham : a < m
                · rw [retryFrom_eq_restart_ok_send_err_cont hguard hr hs ham]
                  obtain ⟨ihs, ihr⟩ := ih (a + 1) .Dead (some e)
                  refine ⟨fun k hk => ?_, fun k hk => ?_⟩
                  · rcases List.mem_cons.mp hk with rfl | hk
                    · exact le_refl k
                    · have := ihs k hk; omega
                  · rcases List.mem_cons.mp hk with rfl | hk
                    · exact ⟨le_refl k, hguard.2⟩
                    · have := ihr k hk; exact ⟨by omega, this.2⟩
                · rw [retryFrom_eq_restart_ok_send_err_last hguard hr hs ham]
                  refine ⟨fun k hk => ?_, fun k hk => ?_⟩
                  · simp only [List.mem_singleton] at hk; omega
                  · simp only [List.mem_singleton] at hk; subst hk
                    exact ⟨le_refl k, hguard.2⟩
      · cases hs : sendO a with
        | ok response =>
            rw [retryFrom_eq_send_ok hguard hs]
            refine ⟨fun k hk => ?_, fun k hk => ?_⟩
            · simp only [List.mem_singleton] at hk; omega
            · simp at hk
        | error e =>
            by_cases ham : a < m
            · rw [retryFrom_eq_send_err_cont hguard hs ham]
              obtain ⟨ihs, ihr⟩ := ih (a + 1) .Dead (some e)
              refine ⟨fun k hk => ?_, fun k hk => ?_⟩
              · rcases List.mem_cons.mp hk with rfl | hk
                · exact le_refl k
                · have := ihs k hk; omega
              · have := ihr k hk; exact ⟨by omega, this.2⟩
            · rw [retryFrom_eq_send_err_last hguard hs ham]
              refine ⟨fun k hk => ?_, fun k hk => ?_⟩
              · simp only [List.mem_singleton] at hk; omega
              · simp at hk

theorem retryFrom_restart_fail_skips (restartO : Nat → Except ProxyError Unit)
    (sendO : Nat → Except ProxyError JsonRpcResponse) (m : Nat) :
    ∀ (fuel a : Nat) (st : BackendState) (le : Option ProxyError) (k : Nat) (e : ProxyError),
      k ∈ (retryFrom restartO sendO m fuel a st le).restarts →
      restartO k = .error e →
      k ∉ (retryFrom restartO sendO m fuel a st le).sends := by
  intro fuel
  induction fuel with
  | zero => intro a st le k e hk _; simp [retryFrom] at hk
  | succ fuel ih =>
      intro a st le k e hk hke
      by_cases hguard : st = BackendState.Dead ∧ 0 < a
      · cases hr : restartO a with
        | error e2 =>
            rw [retryFrom_eq_restart_error hguard hr] at hk ⊢
            rcases List.mem_cons.mp hk with rfl | hk
            · intro hmem
              have := (retryFrom_mem_ge restartO sendO m fuel (k + 1) st (some e2)).1 k hmem
              omega
            · exact ih (a + 1) st (some e2) k e hk hke
        | ok u =>
            cases hs : sendO a with
            | ok response =>
                rw [retryFrom_eq_restart_ok_send_ok hguard hr hs] at hk ⊢
                simp only [List.mem_singleton] at hk
                subst hk
                rw [hr] at hke
                exact absurd hke (by simp)
            | error e2 =>
                by_cases ham : a < m
                · rw [retryFrom_eq_restart_ok_send_err_cont hguard hr hs ham] at hk ⊢
                  rcases List.mem_cons.mp hk with rfl | hk
                  · rw [hr] at hke
                    exact absurd hke (by simp)
                  · have hge := (retryFrom_mem_ge restartO sendO m fuel (a + 1) .Dead (some e2)).2 k hk
                    intro hmem
                    rcases List.mem_cons.mp hmem with rfl | hmem
                    · omega
                    · exact ih (a + 1) .Dead (some e2) k e hk hke hmem
                · rw [retryFrom_eq_restart_ok_send_err_last hguard hr hs ham] at hk ⊢
                  simp only [List.mem_singleton] at hk
                  subst hk
                  rw [hr] at hke
                  exact absurd hke (by simp)
      · cases hs : sendO a with
        | ok response =>
            rw [retryFrom_eq_send_ok hguard hs] at hk
            simp at hk
        | error e2 =>
            by_cases ham : a < m
            · rw [retryFrom_eq_send_err_cont hguard hs ham] at hk ⊢
              have hge := (retryFrom_mem_ge restartO sendO m fuel (a + 1) .Dead (some e2)).2 k hk
              intro hmem
              rcases List.mem_cons.mp hmem with rfl | hmem
              · omega
              · exact ih (a + 1) .Dead (some e2) k e hk hke hmem
            · rw [retryFrom_eq_send_err_last hguard hs ham] at hk
              simp at hk

theorem retryFrom_all_fail (restartO : Nat → Except ProxyError Unit)
    (sendO : Nat → Except ProxyError JsonRpcResponse) (m : Nat)
    (hR : ∀ j, restartO j = .ok ()) (hS : ∀ j, ∃ e, sendO j = .error e) :
    ∀ (fuel a : Nat) (st : BackendState) (le : Option ProxyError),
      fuel = m + 1 - a → a ≤ m →
      (retryFrom restartO sendO m fuel a st le).result = sendO m ∧
      (retryFrom restartO sendO m fuel a st le).sends = List.range' a fuel := by
  intro fuel
  induction fuel with
  | zero => intro a st le hfuel ham; omega
  | succ fuel ih =>
      intro a st le hfuel ham
      obtain ⟨e, he⟩ := hS a
      by_cases hlast : a < m
      · have hrec := ih (a + 1) BackendState.Dead (some e) (by omega) (by omega)
        by_cases hguard : st = BackendState.Dead ∧ 0 < a
        · rw [retryFrom_eq_restart_ok_send_err_cont hguard (hR a) he hlast]
          refine ⟨hrec.1, ?_⟩
          rw [hrec.2, List.range'_succ]
        · rw [retryFrom_eq_send_err_cont hguard he hlast]
          refine ⟨hrec.1, ?_⟩
          rw [hrec.2, List.range'_succ]
      · have ha : a = m := by omega
        have hfuel0 : fuel = 0 := by omega
        subst ha
        subst hfuel0
        by_cases hguard : st = BackendState.Dead ∧ 0 < a
        · rw [retryFrom_eq_restart_ok_send_err_last hguard (hR a) he hlast]
          exact ⟨by rw [he], by simp [List.range']⟩
        · rw [retryFrom_eq_send_err_last hguard he hlast]
          exact ⟨by rw [he], by simp [List.range']⟩

theorem retryFrom_first_success (restartO : Nat → Except ProxyError Unit)
    (sendO : Nat → Except ProxyError JsonRpcResponse) (m k : Nat)
    (response : JsonRpcResponse)
    (hR : ∀ j, restartO j = .ok ()) (hk : k ≤ m) (hok : sendO k = .ok response)
    (hbefore : ∀ j, j < k → ∃ e, sendO j = .error e) :
    ∀ (fuel a : Nat) (st : BackendState) (le : Option ProxyError),
      fuel = m + 1 - a → a ≤ k →
      (retryFrom restartO sendO m fuel a st le).result = .ok response := by
  intro fuel
  induction fuel with
  | zero => intro a st le hfuel hak; omega
  | succ fuel ih =>
      intro a st le hfuel hak
      by_cases hcur : a = k
      · subst hcur
        by_cases hguard : st = BackendState.Dead ∧ 0 < a
        · rw [retryFrom_eq_restart_ok_send_ok hguard (hR a) hok]
        · rw [retryFrom_eq_send_ok hguard hok]
      · have halt : a < k := by omega
        obtain ⟨e, he⟩ := hbefore a halt
        have ham : a < m := by omega
        by_cases hguard : st = BackendState.Dead ∧ 0 < a
        · rw [retryFrom_eq_restart_ok_send_err_cont hguard (hR a) he ham]
          exact ih (a + 1) BackendState.Dead (some e) (by omega) (by omega)
        · rw [retryFrom_eq_send_err_cont hguard he ham]
          exact ih (a + 1) BackendState.Dead (some e) (by omega) (by omega)

theorem zero_mem_retry_sends (restartO : Nat → Except ProxyError Unit)
    (sendO : Nat → Except ProxyError JsonRpcResponse)
    (st : BackendState) (m : Nat) :
    0 ∈ (send_request_with_retry st m restartO sendO).sends := by
  unfold send_request_with_retry
  have hguard : ¬ (st = BackendState.Dead ∧ 0 < 0) := by simp
  cases hs : sendO 0 with
  | ok response => rw [retryFrom_eq_send_ok hguard hs]; simp
  | error e =>
      by_cases ham : 0 < m
      · rw [retryFrom_eq_send_err_cont hguard hs ham]; simp
      · rw [retryFrom_eq_send_err_last hguard hs ham]; simp

/-- C4: `send_request_with_retry(req, max_retries)` performs at most
`1 + max_retries` attempts; attempt 0 calls `send_request` directly and
never restarts; a restart failure at an attempt re-loops without calling
`send_request` at that attempt; with all restarts succeeding, the first
successful `send_request` result is returned, and if every attempt fails,
exactly `1 + max_retries` attempts (0 through max_retries) are made and
the error of the final `send_request` call is returned verbatim. -/
theorem send_request_with_retry_contract (st : BackendState) (max_retries : Nat)
    (restartO : Nat → Except ProxyError Unit)
    (sendO : Nat → Except ProxyError JsonRpcResponse) :
    ((send_request_with_retry st max_retries restartO sendO).sends.length ≤
        1 + max_retries) ∧
    (0 ∈ (send_request_with_retry st max_retries restartO sendO).sends ∧
      0 ∉ (send_request_with_retry st max_retries restartO sendO).restarts) ∧
    (∀ k e, k ∈ (send_request_with_retry st max_retries restartO sendO).restarts →
      restartO k = .error e →
      k ∉ (send_request_with_retry st max_retries restartO sendO).sends) ∧
    ((∀ j, restartO j = .ok ()) → (∀ j, ∃ e, sendO j = .error e) →
      (send_request_with_retry st max_retries restartO sendO).result =
          sendO max_retries ∧
        (send_request_with_retry st max_retries restartO sendO).sends =
          List.range' 0 (max_retries + 1)) ∧
    (∀ k response, (∀ j, restartO j = .ok ()) → k ≤ max_retries →
      sendO k = .ok response → (∀ j, j < k → ∃ e, sendO j = .error e) →
      (send_request_with_retry st max_retries restartO sendO).result =
        .ok response) := by
  refine ⟨?_, ⟨zero_mem_retry_sends restartO sendO st max_retries, ?_⟩, ?_, ?_, ?_⟩
  · have := retryFrom_sends_length restartO sendO max_retries
      (max_retries + 1) 0 st none
    unfold send_request_with_retry
    omega
  · intro h0
    have := (retryFrom_mem_ge restartO sendO max_retries
      (max_retries + 1) 0 st none).2 0 h0
    omega
  · intro k e hk hke
    exact retryFrom_restart_fail_skips restartO sendO max_retries
      (max_retries + 1) 0 st none k e hk hke
  · intro hR hS
    exact retryFrom_all_fail restartO sendO max_retries hR hS
      (max_retries + 1) 0 st none (by omega) (by omega)
  · intro k response hR hk hok hbefore
    exact retryFrom_first_success restartO sendO max_retries k response
      hR hk hok hbefore (max_retries + 1) 0 st none (by omega) (by omega)

/-- Witness for `send_request_with_retry_contract`: with `max_retries = 1`,
a failing attempt 0 followed by a successful attempt 1 returns the first
success (all hypotheses discharged at concrete oracles). -/
theorem send_request_with_retry_contract_witness :
    (send_request_with_retry .Ready 1 (fun _ => .ok ())
      (fun j => if j = 0 then .error (.backendTimeout "t")
        else .ok { jsonrpc := "2.0", id := some (.num 4), result := some "ok",
                   error := none })).result =
      .ok { jsonrpc := "2.0", id := some (.num 4), result := some "ok",
            error := none } := by
  exact (send_request_with_retry_contract .Ready 1 (fun _ => .ok ())
    (fun j => if j = 0 then .error (.backendTimeout "t")
      else .ok { jsonrpc := "2.0", id := some (.num 4), result := some "ok",
                 error := none })).2.2.2.2 1
    { jsonrpc := "2.0", id := some (.num 4), result := some "ok", error := none }
    (fun _ => rfl) (by omega) (by norm_num)
    (fun j hj => ⟨.backendTimeout "t", by
      have hj0 : j = 0 := by omega
      subst hj0
      rfl⟩)

/- ------------------------------------------------------------------ -/
/- Backend pool (`proxy.rs`)                                           -/
/- ------------------------------------------------------------------ -/

/-- The backend pool `LruCache<PathBuf, BackendInstance>` (`proxy.rs` line
32), as an association list with the most-recently-used entry at the
head. -/
abbrev Pool := List (String × BackendInstance)

/-- The keys (workspace roots) of the pool. -/
def poolKeys (pool : Pool) : List String :=
  pool.map Prod.fst

/-- `LruCache::get_mut`: promote the entry for `root` to most recently
used (no change when absent). -/
def lruPromote (pool : Pool) (root : String) : Pool :=
  match pool.find? (fun e => decide (e.1 = root)) with
  | none => pool
  | some e => e :: pool.filter (fun e2 => decide (e2.1 ≠ root))

/-- `LruCache::put`: insert (replacing any entry with the same key) at the
most-recently-used position, evicting from the least-recently-used end if
the capacity is exceeded. -/
def lruPut (pool : Pool) (cap : Nat) (root : String) (b : BackendInstance) : Pool :=
  ((root, b) :: pool.filter (fun e => decide (e.1 ≠ root))).take cap

/-- The scan of `McpProxy::evict_lru_backend` (`proxy.rs` lines 531-543)
over the candidates in LRU-to-MRU order: the key of the first entry whose
backend has no pending requests. -/
def findEvictable : List (String × BackendInstance) → Option String
  | [] => none
  | (r, b) :: rest => if b.has_pending then findEvictable rest else some r

/-- `McpProxy::evict_lru_backend` (`proxy.rs` lines 523-553): the candidate
keys are the pool iterated MRU-first and reversed; pop the first whose
backend has no pending requests and shut it down gracefully; no change if
every backend has pending work. -/
def evict_lru_backend (pool : Pool) : Pool × Option (String × BackendInstance) :=
  match findEvictable pool.reverse with
  | none => (pool, none)
  | some r =>
      match pool.find? (fun e => decide (e.1 = r)) with
      | none => (pool, none)
      | some e =>
          (pool.filter (fun e2 => decide (e2.1 ≠ r)), some (e.1, (e.2.shutdown).1))

/-- The tail of `McpProxy::get_or_create_backend` (`proxy.rs` lines
496-519) after the capacity check: when the root is absent, spawn (the
spawned instance is the given `fresh`) and `put`; then `get_mut` promotes
the entry to most recently used. -/
def finishGetOrCreate (pool : Pool) (cap : Nat) (root : String)
    (fresh : BackendInstance) : Pool :=
  lruPromote (if root ∈ poolKeys pool then pool else lruPut pool cap root fresh) root

/-- `McpProxy::get_or_create_backend` (`proxy.rs` lines 483-520), with a
successful spawn yielding `fresh` on the create path.  When the pool is
full and the root absent, first evict the LRU backend without pending
requests, failing with BackendUnavailable if all are busy.  Returns the
updated pool and the gracefully shut down evicted entry, if any. -/
def get_or_create_backend (pool : Pool) (cap : Nat) (root : String)
    (fresh : BackendInstance) :
    Except ProxyError (Pool × Option (String × BackendInstance)) :=
  if cap ≤ pool.length ∧ root ∉ poolKeys pool then
    match evict_lru_backend pool with
    | (_, none) =>
        .error (.backendUnavailable
          "All backends are busy (pending requests), cannot evict LRU")
    | (pool1, some ev) => .ok (finishGetOrCreate pool1 cap root fresh, some ev)
  else .ok (finishGetOrCreate pool cap root fresh, none)

theorem findEvictable_eq_none (l : List (String × BackendInstance)) :
    findEvictable l = none ↔ ∀ e ∈ l, e.2.has_pending = true := by
  induction l with
  | nil => simp [findEvictable]
  | cons e rest ih =>
      obtain ⟨r, b⟩ := e
      by_cases hb : b.has_pending = true
      · simp [findEvictable, hb, ih]
      · simp only [Bool.not_eq_true] at hb
        simp [findEvictable, hb]

theorem findEvictable_some (l : List (String × BackendInstance)) (r : String)
    (h : findEvictable l = some r) :
    ∃ l1 e l2, l = l1 ++ e :: l2 ∧ e.1 = r ∧ e.2.has_pending = false ∧
      ∀ x ∈ l1, x.2.has_pending = true := by
  induction l with
  | nil => simp [findEvictable] at h
  | cons hd rest ih =>
      obtain ⟨r0, b⟩ := hd
      by_cases hb : b.has_pending = true
      · rw [show findEvictable ((r0, b) :: rest) = findEvictable rest by
          simp [findEvictable, hb]] at h
        obtain ⟨l1, e, l2, hdecomp, h1, h2, h3⟩ := ih h
        refine ⟨(r0, b) :: l1, e, l2, by rw [hdecomp]; rfl, h1, h2, ?_⟩
        intro x hx
        rcases List.mem_cons.mp hx with rfl | hx
        · exact hb
        · exact h3 x hx
      · simp only [Bool.not_eq_true] at hb
        rw [show findEvictable ((r0, b) :: rest) = some r0 by
          simp [findEvictable, hb]] at h
        obtain rfl := Option.some.injEq _ _ ▸ h
        exact ⟨[], (r0, b), rest, rfl, rfl, hb, by simp⟩

theorem pool_find_eq (pool : Pool) (e : String × BackendInstance)
    (hnd : (poolKeys pool).Nodup) (he : e ∈ pool) :
    pool.find? (fun x => decide (x.1 = e.1)) = some e := by
  induction pool with
  | nil => simp at he
  | cons hd rest ih =>
      simp only [poolKeys, List.map_cons, List.nodup_cons] at hnd
      by_cases hkey : hd.1 = e.1
      · have hed : hd = e := by
          rcases List.mem_cons.mp he with rfl | he'
          · rfl
          · exfalso
            apply hnd.1
            rw [hkey]
            exact List.mem_map.mpr ⟨e, he', rfl⟩
        subst hed
        simp [List.find?, hkey]
      · have he' : e ∈ rest := by
          rcases List.mem_cons.mp he with rfl | he'
          · exact absurd rfl hkey
          · exact he'
        rw [List.find?_cons_of_neg _ (by simpa using hkey)]
        exact ih (by simpa [poolKeys] using hnd.2) he'

theorem length_filter_lt_of_mem {α : Type} (l : List α) (p : α → Bool) (x : α)
    (hx : x ∈ l) (hpx : p x = false) : (l.filter p).length < l.length := by
  induction l with
  | nil => simp at hx
  | cons a rest ih =>
      rcases List.mem_cons.mp hx with rfl | hx
      · simp only [List.filter_cons, hpx]
        have := List.length_filter_le p rest
        simp
        omega
      · by_cases hpa : p a = true
        · simp only [List.filter_cons, hpa, if_true]
          have := ih hx
          simp
          omega
        · have hpa' : p a = false := by simp at hpa; exact hpa
          simp only [List.filter_cons, hpa']
          have := List.length_filter_le p rest
          simp
          omega

theorem lruPromote_length_le (pool : Pool) (root : String) :
    (lruPromote pool root).length ≤ pool.length := by
  unfold lruPromote
  cases hf : pool.find? (fun e => decide (e.1 = root)) with
  | none => exact le_refl _
  | some e =>
      have hmem := List.mem_of_find?_eq_some hf
      have hkey : e.1 = root := by
        have := List.find?_some hf
        simpa using this
      have hlt : (pool.filter (fun e2 => decide (e2.1 ≠ root))).length < pool.length := by
        apply length_filter_lt_of_mem pool _ e hmem
        simp [hkey]
      simpa using hlt

theorem lruPut_length_le (pool : Pool) (cap : Nat) (root : String)
    (b : BackendInstance) : (lruPut pool cap root b).length ≤ cap := by
  unfold lruPut
  simp [List.length_take_le]

theorem finishGetOrCreate_length_le (pool : Pool) (cap : Nat) (root : String)
    (fresh : BackendInstance) (hlen : pool.length ≤ cap) :
    (finishGetOrCreate pool cap root fresh).length ≤ cap := by
  unfold finishGetOrCreate
  by_cases hmem : root ∈ poolKeys pool
  · rw [if_pos hmem]
    exact le_trans (lruPromote_length_le pool root) hlen
  · rw [if_neg hmem]
    exact le_trans (lruPromote_length_le _ root) (lruPut_length_le pool cap root fresh)


theorem evict_lru_backend_length (pool : Pool) :
    (evict_lru_backend pool).1.length ≤ pool.length := by
  unfold evict_lru_backend
  split
  · simp
  · split
    · simp
    · simpa using List.length_filter_le _ pool

theorem evict_lru_backend_some (pool : Pool) (pool1 : Pool)
    (ev : String × BackendInstance)
    (hnd : (poolKeys pool).Nodup)
    (h : evict_lru_backend pool = (pool1, some ev)) :
    ∃ l1 e l2, pool.reverse = l1 ++ e :: l2 ∧ e.1 = ev.1 ∧
      e.2.has_pending = false ∧ (∀ x ∈ l1, x.2.has_pending = true) ∧
      ev.2 = (e.2.shutdown).1 := by
  unfold evict_lru_backend at h
  cases hf : findEvictable pool.reverse with
  | none => rw [hf] at h; simp at h
  | some r0 =>
      rw [hf] at h
      dsimp only at h
      obtain ⟨l1, e, l2, hdecomp, he1, he2, he3⟩ :=
        findEvictable_some pool.reverse r0 hf
      have hemem : e ∈ pool := List.mem_reverse.mp (by
        rw [hdecomp]
        exact List.mem_append_right l1 (List.mem_cons_self e l2))
      have hfind : pool.find? (fun x => decide (x.1 = r0)) = some e := by
        rw [← he1]
        exact pool_find_eq pool e hnd hemem
      rw [hfind] at h
      dsimp only at h
      have h2 : (e.1, (e.2.shutdown).1) = ev := by
        have := congrArg Prod.snd h
        simpa using this
      refine ⟨l1, e, l2, hdecomp, ?_, he2, he3, ?_⟩
      · rw [← h2]
      · rw [← h2]

/-- C3: Bounded pool with fair LRU eviction: the pool never exceeds the
capacity `cap = max_backends`; when the pool is full and
`get_or_create_backend` is called for a root not in the pool, the evicted
(and gracefully shut down, hence Dead) entry has no pending requests and
every entry strictly older than it in LRU order has pending requests; and
if every backend has pending requests, the call fails with
BackendUnavailable before any backend is removed or spawned. -/
theorem pool_bounded_lru_eviction (pool : Pool) (cap : Nat) (root : String)
    (fresh : BackendInstance)
    (hlen : pool.length ≤ cap)
    (hnd : (poolKeys pool).Nodup) :
    (∀ p' ev, get_or_create_backend pool cap root fresh = .ok (p', ev) →
      p'.length ≤ cap) ∧
    (cap ≤ pool.length → root ∉ poolKeys pool →
      ((∀ e ∈ pool, e.2.has_pending = true) →
        get_or_create_backend pool cap root fresh =
          .error (.backendUnavailable
            "All backends are busy (pending requests), cannot evict LRU")) ∧
      (∀ p' r b, get_or_create_backend pool cap root fresh = .ok (p', some (r, b)) →
        ∃ l1 e l2, pool.reverse = l1 ++ e :: l2 ∧ e.1 = r ∧
          e.2.has_pending = false ∧ (∀ x ∈ l1, x.2.has_pending = true) ∧
          b = (e.2.shutdown).1 ∧ b.state = .Dead)) := by
  constructor
  · intro p' ev hok
    unfold get_or_create_backend at hok
    by_cases hcond : cap ≤ pool.length ∧ root ∉ poolKeys pool
    · rw [if_pos hcond] at hok
      rcases hev : evict_lru_backend pool with ⟨pool1, evOpt⟩
      rw [hev] at hok
      cases evOpt with
      | none => simp at hok
      | some ev2 =>
          dsimp only at hok
          simp only [Except.ok.injEq, Prod.mk.injEq] at hok
          have hp' : p' = finishGetOrCreate pool1 cap root fresh := hok.1.symm
          subst hp'
          apply finishGetOrCreate_length_le
          have h1 := evict_lru_backend_length pool
          rw [hev] at h1
          exact le_trans h1 hlen
    · rw [if_neg hcond] at hok
      simp only [Except.ok.injEq, Prod.mk.injEq] at hok
      have hp' : p' = finishGetOrCreate pool cap root fresh := hok.1.symm
      subst hp'
      exact finishGetOrCreate_length_le pool cap root fresh hlen
  · intro hfull hnotin
    constructor
    · intro hall
      have hfe : findEvictable pool.reverse = none := by
        rw [findEvictable_eq_none]
        intro e he
        exact hall e (List.mem_reverse.mp he)
      unfold get_or_create_backend
      rw [if_pos ⟨hfull, hnotin⟩]
      unfold evict_lru_backend
      rw [hfe]
    · intro p' r b hok
      unfold get_or_create_backend at hok
      rw [if_pos ⟨hfull, hnotin⟩] at hok
      rcases hev : evict_lru_backend pool with ⟨pool1, evOpt⟩
      rw [hev] at hok
      cases evOpt with
      | none => simp at hok
      | some ev2 =>
          dsimp only at hok
          simp only [Except.ok.injEq, Prod.mk.injEq, Option.some.injEq] at hok
          have hev2 : ev2 = (r, b) := hok.2
          subst hev2
          obtain ⟨l1, e, l2, hdecomp, he1, he2, he3, he4⟩ :=
            evict_lru_backend_some pool pool1 (r, b) hnd hev
          dsimp only at he1 he4
          refine ⟨l1, e, l2, hdecomp, he1, he2, he3, he4, ?_⟩
          rw [he4]
          rfl

/-- Witness for `pool_bounded_lru_eviction`: a full pool of two busy
backends refuses a third root with BackendUnavailable. -/
theorem pool_bounded_lru_eviction_witness :
    get_or_create_backend
      [("a", { root := "a", state := .Ready, last_used := 0, child := some 1,
               stdin_tx := some 2, pending := [(1, some (.num 1))],
               request_timeout := 120, config := 0, process_group_ptr := none }),
       ("b", { root := "b", state := .Ready, last_used := 0, child := some 3,
               stdin_tx := some 4, pending := [(2, some (.num 2))],
               request_timeout := 120, config := 0, process_group_ptr := none })]
      2 "c"
      { root := "c", state := .Ready, last_used := 0, child := some 5,
        stdin_tx := some 6, pending := [], request_timeout := 120,
        config := 0, process_group_ptr := none } =
      .error (.backendUnavailable
        "All backends are busy (pending requests), cannot evict LRU") := by
  exact ((pool_bounded_lru_eviction
    [("a", { root := "a", state := .Ready, last_used := 0, child := some 1,
             stdin_tx := some 2, pending := [(1, some (.num 1))],
             request_timeout := 120, config := 0, process_group_ptr := none }),
     ("b", { root := "b", state := .Ready, last_used := 0, child := some 3,
             stdin_tx := some 4, pending := [(2, some (.num 2))],
             request_timeout := 120, config := 0, process_group_ptr := none })]
    2 "c"
    { root := "c", state := .Ready, last_used := 0, child := some 5,
      stdin_tx := some 6, pending := [], request_timeout := 120,
      config := 0, process_group_ptr := none }
    (by decide) (by decide)).2 (by decide) (by decide)).1 (by decide)

/- ------------------------------------------------------------------ -/
/- Proxy core message handling (`proxy.rs`)                            -/
/- ------------------------------------------------------------------ -/

/-- The `McpProxy` state visible to the message-handling path modelled
here: the shutdown flag and the metric counters. -/
structure ProxyState where
  shutting_down : Bool
  metrics_total_requests : Nat
  metrics_total_errors : Nat
deriving DecidableEq, Repr

/-- Strip every leading U+FEFF, as `trim_start_matches('\u{feff}')` does
(`proxy.rs` line 227). -/
def stripBomChars : List Char → List Char
  | '﻿' :: rest => stripBomChars rest
  | cs => cs

/-- `message.trim_start_matches('\u{feff}').trim()` (`proxy.rs` line 227). -/
def preprocessMessage (s : String) : String :=
  (String.mk (stripBomChars s.data)).trim

/-- `McpProxy::handle_message` (`proxy.rs` lines 225-308) up to the parse
step: strip the BOM, trim, parse; on parse failure immediately return a
-32700 "Parse error" response with null id, with the proxy state untouched
(the failure path runs before `record_request`); on success hand the
request to the rest of the dispatch chain (metrics, protocol handling,
notification throttling, routing), abstracted as `dispatch`. -/
def handle_message (st : ProxyState) (message : String)
    (parse : String → Except String JsonRpcRequest)
    (dispatch : ProxyState → JsonRpcRequest →
      ProxyState × Except ProxyError (Option JsonRpcResponse)) :
    ProxyState × Except ProxyError (Option JsonRpcResponse) :=
  match parse (preprocessMessage message) with
  | .error e =>
      (st, .ok (some (JsonRpcResponse.mkError none
        { code := -32700, message := "Parse error: " ++ e })))
  | .ok request => dispatch st request

/-- Whether one iteration of `McpProxy::run`'s read branch ends the loop. -/
inductive LoopAction where
  | continueLoop
  | exitLoop
deriving DecidableEq, Repr

/-- One iteration of `McpProxy::run`'s read branch (`proxy.rs` lines
171-198) applied to the handler outcome: a `Some` response is serialized
and written to stdout (the emitted list); an `Ok(None)` or `Err` emits
nothing; afterwards the loop breaks iff `shutting_down` is set, otherwise
it continues with the next message. -/
def runStep (st : ProxyState) (h : Except ProxyError (Option JsonRpcResponse)) :
    List JsonRpcResponse × LoopAction :=
  match h with
  | .ok (some response) =>
      ([response], if st.shutting_down then .exitLoop else .continueLoop)
  | .ok none => ([], if st.shutting_down then .exitLoop else .continueLoop)
  | .error _ => ([], if st.shutting_down then .exitLoop else .continueLoop)

/-- C8: a message that fails to parse as a JSON-RPC request (after
stripping a leading UTF-8 BOM and trimming) makes `handle_message` produce
an error response with code -32700 and a null id while leaving the proxy
state untouched; the read loop emits that response to stdout and, not being
in shutdown, continues processing subsequent messages rather than
terminating. -/
theorem parse_failure_emits_parse_error (st : ProxyState) (message : String)
    (parse : String → Except String JsonRpcRequest)
    (dispatch : ProxyState → JsonRpcRequest →
      ProxyState × Except ProxyError (Option JsonRpcResponse))
    (e : String)
    (hparse : parse (preprocessMessage message) = .error e)
    (hrun : st.shutting_down = false) :
    (handle_message st message parse dispatch).1 = st ∧
    (handle_message st message parse dispatch).2 =
      .ok (some (JsonRpcResponse.mkError none
        { code := -32700, message := "Parse error: " ++ e })) ∧
    (JsonRpcResponse.mkError none
      { code := -32700, message := "Parse error: " ++ e }).id = none ∧
    (JsonRpcResponse.mkError none
      { code := -32700, message := "Parse error: " ++ e }).error =
      some { code := -32700, message := "Parse error: " ++ e } ∧
    runStep (handle_message st message parse dispatch).1
        (handle_message st message parse dispatch).2 =
      ([JsonRpcResponse.mkError none
        { code := -32700, message := "Parse error: " ++ e }], .continueLoop) := by
  have h1 : handle_message st message parse dispatch =
      (st, .ok (some (JsonRpcResponse.mkError none
        { code := -32700, message := "Parse error: " ++ e }))) := by
    simp only [handle_message, hparse]
  rw [h1]
  refine ⟨rfl, rfl, rfl, rfl, ?_⟩
  simp [runStep, hrun]

/-- Witness for `parse_failure_emits_parse_error` at a concrete unparsable
message and a dispatch that is never reached. -/
theorem parse_failure_emits_parse_error_witness :
    runStep
      (handle_message
        { shutting_down := false, metrics_total_requests := 0,
          metrics_total_errors := 0 }
        "not json" (fun _ => .error "expected value")
        (fun s _ => (s, .ok none))).1
      (handle_message
        { shutting_down := false, metrics_total_requests := 0,
          metrics_total_errors := 0 }
        "not json" (fun _ => .error "expected value")
        (fun s _ => (s, .ok none))).2 =
      ([JsonRpcResponse.mkError none
        { code := -32700, message := "Parse error: " ++ "expected value" }],
       .continueLoop) := by
  exact (parse_failure_emits_parse_error
    { shutting_down := false, metrics_total_requests := 0,
      metrics_total_errors := 0 }
    "not json" (fun _ => .error "expected value")
    (fun s _ => (s, .ok none))
    "expected value" rfl rfl).2.2.2.2
